import Mathlib

/-!
Verification of the pytest-loco core against its specification.

The Python modules are shallowly embedded as Lean definitions:

* `Value` models the resolved DSL value universe (`pytest_loco/values.py`,
  restricted to the null / bool / int / str / SecretStr scalars plus
  lists and string-keyed mappings);
* `pyEq` models Python `==` on that universe, `pytype` / `instOf`
  model `type(...)` / `isinstance(...)` (including the `bool <: int`
  subclass relation);
* `exactMatch`, `seqPartialMatch`, `mapPartialMatch`, `partialMatch`
  embed the builtin checkers of `pytest_loco/builtins/checkers.py`;
* `resolveSegs` / `mkVariableLookup` / `secretLookupCall` embed the
  lookups of `pytest_loco/builtins/lookups.py`;
* `normalize` embeds `pytest_loco/values.py::normalize` (with a fuel
  bound standing for Python's recursion limit on chained callables);
* `checkDefaultRequired` / `schemaBuild` embed
  `pytest_loco/extensions/parameters.py`;
* `addActor` embeds the registry conflict policy of
  `pytest_loco/core/loader.py`;
* `runChecks` / `stepIter` / `runSpecFrom` embed the execution engine
  loop of `pytest_loco/plugin/case.py::TestPlan.run_spec`.
-/

namespace Loco

/-- Resolved DSL value (`values.py::Value`), restricted to the
null / bool / int / str / SecretStr scalars plus lists and
string-keyed mappings. -/
inductive Value where
  | vnull
  | vbool (b : Bool)
  | vint (n : Int)
  | vstr (s : String)
  | vsecret (s : String)
  | vlist (xs : List Value)
  | vdict (kvs : List (String × Value))

/-- Python runtime type tags for the embedded value universe. -/
inductive PyType where
  | tnone | tbool | tint | tstr | tsecret | tlist | tdict
  deriving DecidableEq, Repr

/-- Runtime type of a value (`type(v)` in Python). -/
def pytype : Value → PyType
  | .vnull => .tnone
  | .vbool _ => .tbool
  | .vint _ => .tint
  | .vstr _ => .tstr
  | .vsecret _ => .tsecret
  | .vlist _ => .tlist
  | .vdict _ => .tdict

/-- Python `isinstance(a, t)`: the runtime type of `a` equals `t` or is a
subclass of it.  Within the embedded universe the only proper subclass
relation is `bool <: int`. -/
def instOf (a : Value) (t : PyType) : Bool :=
  pytype a == t || (pytype a == .tbool && t == .tint)

/-- Numeric interpretation used by Python `==` across `bool`/`int`. -/
def numVal : Value → Option Int
  | .vbool b => some (if b then 1 else 0)
  | .vint n => some n
  | _ => none

mutual

/-- Python `==` on embedded values: `bool`/`int` compare numerically,
secrets compare by their underlying string, containers compare
structurally (mappings order-insensitively). -/
def pyEq : Value → Value → Bool
  | .vnull, .vnull => true
  | .vstr s, .vstr t => s == t
  | .vsecret s, .vsecret t => s == t
  | .vlist xs, .vlist ys => pyEqList xs ys
  | .vdict xs, .vdict ys => xs.length == ys.length && pyEqDict xs ys
  | a, b =>
    match numVal a, numVal b with
    | some m, some n => m == n
    | _, _ => false

/-- Elementwise Python `==` on lists. -/
def pyEqList : List Value → List Value → Bool
  | [], [] => true
  | x :: xs, y :: ys => pyEq x y && pyEqList xs ys
  | _, _ => false

/-- Every entry of the first mapping is present (by key) in the second
with a Python-equal value. -/
def pyEqDict : List (String × Value) → List (String × Value) → Bool
  | [], _ => true
  | (k, v) :: rest, ys =>
    (match ys.lookup k with
     | some w => pyEq v w
     | none => false)
    && pyEqDict rest ys

end

/-- Errors surfaced by the builtin checkers: Python `AssertionError`
versus `DSLRuntimeError`. -/
inductive ChkErr where
  | assertErr
  | dslErr
  deriving DecidableEq, Repr

/-- Embeds `checkers.py::_exact_match`: assert
`isinstance(actual, type(expected))`, assert `actual == expected`,
return `True`. -/
def exactMatch (actual expected : Value) : Except ChkErr Bool :=
  if instOf actual (pytype expected) then
    if pyEq actual expected then .ok true else .error .assertErr
  else
    .error .assertErr

/-- Scalar classification of `values.py::SCALARS` restricted to the
embedded universe. -/
def isScalar (v : Value) : Bool :=
  match v with
  | .vbool _ | .vint _ | .vstr _ | .vsecret _ => true
  | _ => false

mutual

/-- Embeds `checkers.py::_partial_match`: dispatch on the type of the
expected value (scalar: exact match; sequence: sequence partial match;
mapping: mapping partial match); a null expected value falls through
every `isinstance` test and raises `DSLRuntimeError`. -/
def partialMatch (actual expected : Value) : Except ChkErr Bool :=
  match expected with
  | .vbool b => exactMatch actual (.vbool b)
  | .vint n => exactMatch actual (.vint n)
  | .vstr s => exactMatch actual (.vstr s)
  | .vsecret s => exactMatch actual (.vsecret s)
  | .vlist xs => seqPartialMatch actual (.vlist xs)
  | .vdict kvs => mapPartialMatch actual (.vdict kvs)
  | .vnull => .error .dslErr
  termination_by (sizeOf expected, 3, 0)

/-- Embeds `checkers.py::_seq_partial_match`: count the matching pairs
of the product `actual × expected` (suppressing `AssertionError` per
pair) and succeed when the count reaches `len(expected)`. -/
def seqPartialMatch (actual expected : Value) : Except ChkErr Bool :=
  match actual, expected with
  | .vlist xs, .vlist es => do
    let n ← countPairs xs es
    return decide (n ≥ es.length)
  | _, _ => .error .assertErr
  termination_by (sizeOf expected, 2, 0)

/-- Pair counting over the full product, outer loop on the actual
elements (`itertools.product(actual, expected)`). -/
def countPairs (xs es : List Value) : Except ChkErr Nat :=
  match xs with
  | [] => .ok 0
  | x :: rest => do
    let r ← countRow x es
    let n ← countPairs rest es
    return r + n
  termination_by (sizeOf es, 1, sizeOf xs)

/-- Inner loop of the pair count: one actual element against every
expected element; `AssertionError` is suppressed (counts 0),
`DSLRuntimeError` propagates. -/
def countRow (x : Value) (es : List Value) : Except ChkErr Nat :=
  match es with
  | [] => .ok 0
  | e :: rest =>
    match partialMatch x e with
    | .ok b => do
      let n ← countRow x rest
      return (if b then 1 else 0) + n
    | .error .assertErr => countRow x rest
    | .error .dslErr => .error .dslErr
  termination_by (sizeOf es, 0, 0)

/-- Embeds `checkers.py::_map_partial_match`: both sides must be
mappings; every expected key must be present in the actual mapping and
the conjunction of the recursive matches is accumulated without
short-circuiting. -/
def mapPartialMatch (actual expected : Value) : Except ChkErr Bool :=
  match actual, expected with
  | .vdict xs, .vdict es => mapGo xs es true
  | _, _ => .error .assertErr
  termination_by (sizeOf expected, 2, 0)

/-- Loop of `_map_partial_match` over the expected entries, carrying
the accumulated boolean result. -/
def mapGo (xs : List (String × Value)) (es : List (String × Value))
    (acc : Bool) : Except ChkErr Bool :=
  match es with
  | [] => .ok acc
  | (k, v) :: rest =>
    match xs.lookup k with
    | none => .error .assertErr
    | some w => do
      let b ← partialMatch w v
      mapGo xs rest (acc && b)
  termination_by (sizeOf es, 1, 0)

end

/-! ### Lookups (`builtins/lookups.py`) -/

/-- Matches `names.py::VARIABLE_PATTERN` (`^[a-zA-Z][\w]*$` with the
ASCII flag): a letter followed by letters, digits or underscores. -/
def isVarName (s : String) : Bool :=
  match s.data with
  | [] => false
  | ch :: rest => ch.isAlpha && rest.all (fun c => c.isAlphanum || c == '_')

/-- Python `str.isdecimal` restricted to ASCII digits. -/
def isDecimal (s : String) : Bool :=
  !s.data.isEmpty && s.data.all Char.isDigit

/-- Numeric value of a decimal segment (`int(key)`). -/
def segToNat (s : String) : Nat :=
  s.data.foldl (fun acc c => acc * 10 + (c.toNat - '0'.toNat)) 0

/-- Python whitespace characters removed by `str.strip()`. -/
def isPySpace (c : Char) : Bool :=
  c == ' ' || c == '\t' || c == '\n' || c == '\r' || c == '\x0b' || c == '\x0c'

/-- Python `str.strip()`: trim whitespace from both ends. -/
def pyStrip (s : String) : String :=
  ⟨((s.data.dropWhile isPySpace).reverse.dropWhile isPySpace).reverse⟩

/-- Splitter for Python `str.split('.')` over the character list,
keeping empty segments. -/
def splitDotAux : List Char → List Char → List String
  | [], acc => [⟨acc.reverse⟩]
  | c :: rest, acc =>
    if c == '.' then ⟨acc.reverse⟩ :: splitDotAux rest []
    else splitDotAux rest (c :: acc)

/-- Python `str.split('.')`. -/
def pySplitDot (s : String) : List String :=
  splitDotAux s.data []

/-- Embeds `VariableLookup.__init__`: strip the path, split on dots and
require the first segment to match the identifier pattern; a malformed
root segment fails construction (`DSLSchemaError`). -/
def mkVariableLookup (s : String) : Option (List String) :=
  let segs := pySplitDot (pyStrip s)
  if isVarName (segs.headD "") then some segs else none

/-- Embeds `VariableLookup.resolve`: walk the remaining path segments.
A null current value or an exhausted path returns the current value; an
empty segment returns null; a decimal segment indexes sequences
(out-of-range continues with null); mappings are looked up by key
(absent continues with null); anything else returns null. -/
def resolveSegs : List String → Value → Value
  | [], v => v
  | k :: rest, v =>
    match v with
    | .vnull => .vnull
    | _ =>
      if k.isEmpty then .vnull
      else
        match v with
        | .vlist xs =>
          if isDecimal k then
            match xs[segToNat k]? with
            | some x => resolveSegs rest x
            | none => resolveSegs rest .vnull
          else .vnull
        | .vdict kvs =>
          match kvs.lookup k with
          | some w => resolveSegs rest w
          | none => resolveSegs rest .vnull
        | _ => .vnull

/-- Embeds `SecretLookup.__call__`: resolve the path, then unwrap a
`SecretStr` result via `get_secret_value`; any other resolved value is
returned by the final `return value`. -/
def secretLookupCall (segs : List String) (ctx : List (String × Value)) : Value :=
  match resolveSegs segs (.vdict ctx) with
  | .vsecret s => .vstr s
  | v => v

/-- Spec-side miss predicate for `C3`: traversal hits a missing key, a
wrong-typed container, an out-of-range index or an empty segment at
some segment (before the current value degenerates to null). -/
def hitsMiss : List String → Value → Bool
  | [], _ => false
  | k :: rest, v =>
    match v with
    | .vnull => false
    | _ =>
      if k.isEmpty then true
      else
        match v with
        | .vlist xs =>
          if isDecimal k then
            match xs[segToNat k]? with
            | some x => hitsMiss rest x
            | none => true
          else true
        | .vdict kvs =>
          match kvs.lookup k with
          | some w => hitsMiss rest w
          | none => true
        | _ => true

/-! ### Deferred values and `values.py::normalize` -/

/-- Execution context: a name-to-value mapping
(`context.py::ContextDict`), embedded as an insertion-ordered
association list with unique keys, as Python `dict` iteration order. -/
abbrev Ctx := List (String × Value)

/-- A deferred runtime value (`values.py::Deferred`): a scalar, a
container of deferred values, or a unary callable from a context to a
further deferred value. -/
inductive DeferredValue where
  | dnull
  | dbool (b : Bool)
  | dint (n : Int)
  | dstr (s : String)
  | dsecret (s : String)
  | dlist (xs : List DeferredValue)
  | ddict (kvs : List (String × DeferredValue))
  | dfun (f : Ctx → DeferredValue)

/-- Normalization failure: the fuel bound standing for Python's
recursion limit was exhausted by a chain of callables. -/
inductive NormErr where
  | fuelExhausted
  deriving DecidableEq, Repr

mutual

/-- Embeds `values.py::normalize`: scalars pass through, containers are
normalized recursively, callables are invoked with the context and
their result normalized against the same context.  `fuel` bounds the
depth of callable chains (Python's recursion limit); only the callable
case consumes fuel. -/
def normalize : Nat → DeferredValue → Ctx → Except NormErr Value
  | _, .dnull, _ => .ok .vnull
  | _, .dbool b, _ => .ok (.vbool b)
  | _, .dint n, _ => .ok (.vint n)
  | _, .dstr s, _ => .ok (.vstr s)
  | _, .dsecret s, _ => .ok (.vsecret s)
  | fuel, .dlist xs, c => do
    let vs ← normalizeList fuel xs c
    return .vlist vs
  | fuel, .ddict kvs, c => do
    let ws ← normalizeDict fuel kvs c
    return .vdict ws
  | 0, .dfun _, _ => .error .fuelExhausted
  | fuel + 1, .dfun f, c => normalize fuel (f c) c

/-- Elementwise normalization of a sequence, preserving order. -/
def normalizeList : Nat → List DeferredValue → Ctx → Except NormErr (List Value)
  | _, [], _ => .ok []
  | fuel, x :: xs, c => do
    let v ← normalize fuel x c
    let vs ← normalizeList fuel xs c
    return v :: vs

/-- Entrywise normalization of a mapping, preserving keys and order. -/
def normalizeDict : Nat → List (String × DeferredValue) → Ctx →
    Except NormErr (List (String × Value))
  | _, [], _ => .ok []
  | fuel, (k, x) :: kvs, c => do
    let v ← normalize fuel x c
    let ws ← normalizeDict fuel kvs c
    return (k, v) :: ws

end

mutual

/-- Re-embedding of a fully resolved value as a deferred structure (a
`Value` is in particular a `Deferred[Value]`). -/
def Value.toDeferred : Value → DeferredValue
  | .vnull => .dnull
  | .vbool b => .dbool b
  | .vint n => .dint n
  | .vstr s => .dstr s
  | .vsecret s => .dsecret s
  | .vlist xs => .dlist (toDeferredList xs)
  | .vdict kvs => .ddict (toDeferredDict kvs)

/-- Elementwise re-embedding of a resolved sequence. -/
def toDeferredList : List Value → List DeferredValue
  | [] => []
  | x :: xs => x.toDeferred :: toDeferredList xs

/-- Entrywise re-embedding of a resolved mapping. -/
def toDeferredDict : List (String × Value) → List (String × DeferredValue)
  | [] => []
  | (k, v) :: rest => (k, v.toDeferred) :: toDeferredDict rest

end

/-! ### Schema/Attribute compiler (`extensions/parameters.py`) -/

/-- Null test on values (`v is None`). -/
def Value.isNull : Value → Bool
  | .vnull => true
  | _ => false

/-- Declarative attribute descriptor
(`parameters.py::Attribute`), keeping the fields the claims are about. -/
structure Attribute where
  aliases : List String
  default : Value
  required : Bool

/-- Embeds `Attribute.check_default_required`: accept unless both a
`required` constraint and a non-null `default` are present. -/
def checkDefaultRequired (a : Attribute) : Except String Attribute :=
  if a.required = false || a.default.isNull then .ok a
  else .error "specified both a default value and a required constraint"

/-- Embeds `Schema.build`: walk the attributes in order, failing when
an attribute's aliases intersect the growing exclusion set or its name
is already excluded, then add the name and the aliases to the set. -/
def schemaBuild : List (String × Attribute) → List String →
    Except String (List (String × Attribute))
  | [], _ => .ok []
  | (name, attr) :: rest, exclude =>
    if !attr.aliases.isEmpty && attr.aliases.any (exclude.contains ·) then
      .error ("aliases for attribute `" ++ name ++ "` is not unique in schema")
    else if exclude.contains name then
      .error ("attribute `" ++ name ++ "` is not unique in schema")
    else do
      let others ← schemaBuild rest (exclude ++ name :: attr.aliases)
      return (name, attr) :: others

/-- Spec-side collision predicate for `C7`: some attribute's name or
alias collides with the supplied exclusions or with the name or an
alias of an earlier attribute. -/
def specSchemaCollision : List (String × Attribute) → List String → Bool
  | [], _ => false
  | (name, attr) :: rest, exclude =>
    attr.aliases.any (exclude.contains ·)
    || exclude.contains name
    || specSchemaCollision rest (exclude ++ name :: attr.aliases)

/-- Success test for `Except` results. -/
def isOk {ε α : Type} : Except ε α → Bool
  | .ok _ => true
  | .error _ => false

/-! ### Registry conflict policy (`core/loader.py`) -/

/-- Embeds `ExtensionsLoaderMixin.resolve_plugin_names`' qualified
name: the namespace (defaulting to `builtins`) joined to the extension
name with a dot. -/
def resolveQualname (name : String) (ns : Option String) : String :=
  (ns.getD "builtins") ++ "." ++ name

/-- Python `dict` assignment on an association list: replace the first
matching key in place, else append. -/
def updateAssoc {α : Type} : List (String × α) → String → α → List (String × α)
  | [], k, v => [(k, v)]
  | (k', v') :: rest, k, v =>
    if k' = k then (k, v) :: rest else (k', v') :: updateAssoc rest k v

/-- Embeds `ExtensionsLoaderMixin.add_actor` together with
`emit_plugin_issue`: registering a qualified name already present in
the table raises a `PluginError` in strict mode (leaving the table
unchanged) and otherwise emits a `PluginWarning` (the returned flag)
and overwrites the entry; a fresh name is stored without a warning. -/
def addActor {α : Type} (strict : Bool) (tbl : List (String × α))
    (name : String) (ns : Option String) (v : α) :
    Except String (List (String × α) × Bool) :=
  let qualname := resolveQualname name ns
  if (tbl.lookup qualname).isSome then
    if strict then
      .error ("Actor " ++ qualname ++ " is shadowing an existing")
    else
      .ok (updateAssoc tbl qualname v, true)
  else
    .ok (updateAssoc tbl qualname v, false)

/-! ### Execution engine (`plugin/case.py::TestPlan.run_spec`) -/

/-- Python `dict.update`: fold the update entries into the base
mapping, replacing present keys in place and appending new ones. -/
def updateCtx (d u : Ctx) : Ctx :=
  u.foldl (fun acc kv => updateAssoc acc kv.1 kv.2) d

/-- A compiled check as the engine sees it: its resolved invocation
(`BaseCheck.__call__` through `run_callable`, so an `AssertionError` or
a wrapped `DSLRuntimeError` are the only error outcomes), its optional
title and the sanitized snapshot of its declared fields
(`model_dump`). -/
structure CheckModel where
  call : Ctx → Except ChkErr Value
  title : Option String
  fields : List (String × Value)

/-- Step runner failures as `run_callable` classifies them: an
`AssertionError` propagates as-is, anything else becomes a
`DSLRuntimeError`. -/
inductive RunErr where
  | assertLike
  | runtimeLike
  deriving DecidableEq, Repr

/-- A compiled step as the engine sees it: executing the step yields
the value stored under its `output` name (`BaseAction.__call__`
returns `{output: normalize(result)}`; for an include the nested plan
result is keyed the same way), plus the declared `export` mapping of
deferred values and the declared checks. -/
structure StepModel where
  run : Ctx → Except RunErr Value
  output : String
  exports : List (String × DeferredValue)
  expect : List CheckModel

/-- The failure report built by `TestPlan.fail` for a failed
expectation: scenario file, step and check coordinates, check title,
formatted message, snapshot of the check's fields and of the local
context. -/
structure FailInfo where
  filename : String
  stepNum : Nat
  checkNum : Nat
  title : Option String
  message : String
  element : List (String × Value)
  context : Ctx

/-- Plan-level failures: an enriched check `AssertionError`, an
`AssertionError` propagated as-is from a step body, or a
`DSLRuntimeError` carrying step/check coordinates. -/
inductive Failure where
  | assertion (info : FailInfo)
  | assertRaw
  | runtime (stepNum : Option Nat) (checkNum : Option Nat)

/-- Embeds `TestPlan.fail`: build the enriched assertion report, with
the message extended by the check title when present. -/
def mkFailInfo (fn : String) (stepNum checkNum : Nat) (c : CheckModel)
    (lc : Ctx) : FailInfo :=
  { filename := fn
    stepNum := stepNum
    checkNum := checkNum
    title := c.title
    message := "Expectation fail" ++
      (match c.title with
       | some t => ": " ++ t
       | none => "")
    element := c.fields
    context := lc }

/-- Embeds the check loop of `TestPlan.run_spec`: each check is
invoked in order against the local view; a raised `AssertionError` or
an exact `False` return becomes an enriched assertion failure, a
`DSLRuntimeError` propagates with its coordinates, and any other
return value lets execution continue. -/
def runChecks (fn : String) (stepNum checkNum : Nat) (lc : Ctx) :
    List CheckModel → Except Failure Unit
  | [] => .ok ()
  | c :: rest =>
    match c.call lc with
    | .error .assertErr => .error (.assertion (mkFailInfo fn stepNum checkNum c lc))
    | .error .dslErr => .error (.runtime (some stepNum) (some checkNum))
    | .ok v =>
      match v with
      | .vbool false => .error (.assertion (mkFailInfo fn stepNum checkNum c lc))
      | _ => runChecks fn stepNum (checkNum + 1) lc rest

/-- Embeds one iteration of the step loop of `TestPlan.run_spec`:
build the local view as a copy of the global context, execute the step
and merge its result under the output name, resolve the export mapping
against that updated local view, merge the exports into the local
view, run the checks, and finally merge the exports (and only them)
into the global context. -/
def stepIter (fuel : Nat) (fn : String) (i : Nat) (step : StepModel)
    (g : Ctx) : Except Failure Ctx :=
  match step.run g with
  | .error .assertLike => .error .assertRaw
  | .error .runtimeLike => .error (.runtime (some i) none)
  | .ok v =>
    let locals1 := updateCtx g [(step.output, v)]
    match normalizeDict fuel step.exports locals1 with
    | .error _ => .error (.runtime (some i) none)
    | .ok exps =>
      let locals2 := updateCtx locals1 exps
      match runChecks fn i 0 locals2 step.expect with
      | .error f => .error f
      | .ok _ => .ok (updateCtx g exps)

/-- Embeds the step loop of `TestPlan.run_spec` from step index `i`:
run each step iteration in order, threading the accumulated global
context; the first failure aborts the whole plan. -/
def runSpecFrom (fuel : Nat) (fn : String) :
    Nat → List StepModel → Ctx → Except Failure Ctx
  | _, [], g => .ok g
  | i, step :: rest, g => do
    let g' ← stepIter fuel fn i step g
    runSpecFrom fuel fn (i + 1) rest g'

/-! ## Theorems -/

/-- C1: For every pair of sequence values `actual` and `expected`, the
sequence partial-match predicate returns true if and only if every
element of `expected` partially matches at least one element of
`actual`.  REFUTED: the code counts matching pairs of the full product
`actual × expected` and succeeds once the count reaches
`len(expected)`; with `actual = [42, 42]` and `expected = [42, 95]`
the duplicated 42 contributes two matching pairs, so the match
succeeds although 95 matches no element of `actual`.  (The spec's own
examples `partialMatch([42,0],[42]) == true` and
`partialMatch([42,0],[95]) == false` do hold, as the first two
conjuncts record.) -/
theorem C1_seq_partial_match_counts_pairs :
    seqPartialMatch (.vlist [.vint 42, .vint 0]) (.vlist [.vint 42]) = .ok true ∧
    seqPartialMatch (.vlist [.vint 42, .vint 0]) (.vlist [.vint 95]) = .ok false ∧
    seqPartialMatch (.vlist [.vint 42, .vint 42]) (.vlist [.vint 42, .vint 95]) = .ok true ∧
    ¬ (∀ e ∈ [Value.vint 42, Value.vint 95],
        ∃ a ∈ [Value.vint 42, Value.vint 42], partialMatch a e = .ok true) := by
  refine ⟨?_, ?_, ?_, ?_⟩
  · simp [seqPartialMatch, countPairs, countRow, partialMatch, exactMatch, instOf,
      pyEq, pytype, numVal, Bind.bind, Except.bind, Pure.pure, Except.pure]
  · simp [seqPartialMatch, countPairs, countRow, partialMatch, exactMatch, instOf,
      pyEq, pytype, numVal, Bind.bind, Except.bind, Pure.pure, Except.pure]
  · simp [seqPartialMatch, countPairs, countRow, partialMatch, exactMatch, instOf,
      pyEq, pytype, numVal, Bind.bind, Except.bind, Pure.pure, Except.pure]
  · intro h
    obtain ⟨a, ha, hm⟩ := h (Value.vint 95) (by simp)
    have ha' : a = Value.vint 42 := by
      simpa using ha
    rw [ha'] at hm
    have : partialMatch (Value.vint 42) (Value.vint 95) = .error .assertErr := by
      simp [partialMatch, exactMatch, instOf, pyEq, pytype, numVal]
    rw [this] at hm
    exact Except.noConfusion hm

/-- C2: The secret-aware lookup should unwrap secrets and return null
for every non-secret resolved value.  REFUTED: `SecretLookup.__call__`
ends with `return value`, so a non-secret resolved value (here the
integer 42 under path `a`) is returned unchanged instead of being
suppressed to null — contradicting the method's own docstring
("otherwise `None`", "deliberate fail-closed behavior").  The secret
unwrapping half does hold, as the last conjunct records. -/
theorem C2_secret_lookup_returns_non_secret :
    secretLookupCall ["a"] [("a", .vint 42)] = .vint 42 ∧
    Value.vint 42 ≠ Value.vnull ∧
    secretLookupCall ["a"] [("a", .vsecret "tok")] = .vstr "tok" :=
  ⟨rfl, fun h => Value.noConfusion h, rfl⟩

/-- Resolving any path against a null value yields null. -/
theorem resolveSegs_null (segs : List String) :
    resolveSegs segs .vnull = .vnull := by
  cases segs <;> simp [resolveSegs]

/-- Any traversal that hits a miss resolves to null. -/
theorem hitsMiss_resolveSegs_null :
    ∀ (segs : List String) (v : Value),
      hitsMiss segs v = true → resolveSegs segs v = .vnull := by
  intro segs
  induction segs with
  | nil => intro v h; simp [hitsMiss] at h
  | cons k rest ih =>
    intro v h
    cases v with
    | vnull => simp [hitsMiss] at h
    | vbool b => simp [resolveSegs]
    | vint n => simp [resolveSegs]
    | vstr s => simp [resolveSegs]
    | vsecret s => simp [resolveSegs]
    | vlist xs =>
      by_cases hk : k.isEmpty
      · simp [resolveSegs, hk]
      · by_cases hd : isDecimal k
        · cases hx : xs[segToNat k]? with
          | none => simp [resolveSegs, hk, hd, hx, resolveSegs_null]
          | some x =>
            have h' : hitsMiss rest x = true := by
              simpa [hitsMiss, hk, hd, hx] using h
            simpa [resolveSegs, hk, hd, hx] using ih x h'
        · simp [resolveSegs, hk, hd]
    | vdict kvs =>
      by_cases hk : k.isEmpty
      · simp [resolveSegs, hk]
      · cases hx : kvs.lookup k with
        | none => simp [resolveSegs, hk, hx, resolveSegs_null]
        | some w =>
          have h' : hitsMiss rest w = true := by
            simpa [hitsMiss, hk, hx] using h
          simpa [resolveSegs, hk, hx] using ih w h'

/-- C3: For every successfully constructed path lookup (a path whose
first stripped segment matches identifier syntax) and every context,
whenever traversal hits a missing key, a wrong-typed container, an
out-of-range numeric index, or an empty segment at any segment, the
total resolver returns null (and, being a total function, raises
nothing). -/
theorem C3_path_lookup_total_null_on_miss
    (s : String) (segs : List String) (ctx : Ctx)
    (_hmk : mkVariableLookup s = some segs)
    (hmiss : hitsMiss segs (.vdict ctx) = true) :
    resolveSegs segs (.vdict ctx) = .vnull :=
  hitsMiss_resolveSegs_null segs (.vdict ctx) hmiss

/-- Witness for C3 at a concrete missing key: resolving
`a.missing` against `{"a": {}}` yields null. -/
theorem C3_witness :
    resolveSegs ["a", "missing"] (.vdict [("a", .vdict [])]) = .vnull :=
  C3_path_lookup_total_null_on_miss "a.missing" ["a", "missing"]
    [("a", .vdict [])] rfl rfl

/-- C4 counterexample: the exact-match check uses
`isinstance(actual, type(expected))`, which admits subclasses; since
Python's `bool` is a subclass of `int` and `True == 1`, the pair
`actual = True, expected = 1` has mismatched runtime types yet the
exact match succeeds instead of raising. -/
theorem C4_counterexample :
    exactMatch (.vbool true) (.vint 1) = .ok true ∧
    pytype (.vbool true) ≠ pytype (.vint 1) :=
  ⟨rfl, by decide⟩

/-- C4 (amended): the exact-match check succeeds exactly when `actual`
is an instance of `expected`'s runtime type — equality of types or the
`bool <: int` subclass relation — and the values compare equal; in
particular any pair whose actual type is neither `expected`'s type nor
a subclass of it fails (raises an assertion) even when the values
compare equal. -/
theorem C4_exact_match_instance_of_type :
    (∀ a e, exactMatch a e = .ok true ↔
      (instOf a (pytype e) = true ∧ pyEq a e = true)) ∧
    (∀ a t, instOf a t = true →
      pytype a = t ∨ (pytype a = .tbool ∧ t = .tint)) ∧
    (∀ a e, instOf a (pytype e) = false →
      exactMatch a e = .error .assertErr) := by
  refine ⟨?_, ?_, ?_⟩
  · intro a e
    unfold exactMatch
    constructor
    · intro h
      split at h
      · split at h
        · constructor
          · assumption
          · assumption
        · exact absurd h (by simp)
      · exact absurd h (by simp)
    · rintro ⟨h1, h2⟩
      simp [h1, h2]
  · intro a t h
    unfold instOf at h
    rcases Bool.or_eq_true_iff.mp h with h' | h'
    · exact Or.inl (by simpa using h')
    · right
      exact ⟨by simpa using (Bool.and_eq_true_iff.mp h').1,
             by simpa using (Bool.and_eq_true_iff.mp h').2⟩
  · intro a e h
    unfold exactMatch
    simp [h]

/-- Witness for C4 (amended) at a concrete mismatched-type pair: an
integer never exact-matches an expected string. -/
theorem C4_witness :
    exactMatch (.vint 1) (.vstr "a") = .error .assertErr :=
  C4_exact_match_instance_of_type.2.2 (.vint 1) (.vstr "a") rfl

/-- Success of an `Except` bind reduces to success of both stages. -/
theorem isOk_bind {ε α β : Type} (x : Except ε α) (f : α → Except ε β) :
    isOk (x.bind f) = true ↔ ∃ a, x = .ok a ∧ isOk (f a) = true := by
  cases x with
  | error e => simp [Except.bind, isOk]
  | ok a => simp [Except.bind]

/-- C7: Schema compilation fails exactly when some attribute's name or
alias collides with the supplied excluded base-field names or with the
name or an alias of an attribute compiled before it; and attribute
construction rejects exactly the combination of a `required`
constraint with a non-null default. -/
theorem C7_schema_uniqueness_and_default_required :
    (∀ (attrs : List (String × Attribute)) (exclude : List String),
      isOk (schemaBuild attrs exclude) = true ↔
        specSchemaCollision attrs exclude = false) ∧
    (∀ a : Attribute,
      isOk (checkDefaultRequired a) = true ↔
        (a.required = false ∨ a.default.isNull = true)) := by
  constructor
  · intro attrs
    induction attrs with
    | nil => intro exclude; simp [schemaBuild, specSchemaCollision, isOk]
    | cons hd rest ih =>
      intro exclude
      obtain ⟨name, attr⟩ := hd
      have hguard :
          (!attr.aliases.isEmpty && attr.aliases.any (exclude.contains ·))
            = attr.aliases.any (exclude.contains ·) := by
        cases attr.aliases <;> simp
      simp only [schemaBuild, specSchemaCollision, hguard]
      cases hA : attr.aliases.any (exclude.contains ·) with
      | true => simp [isOk]
      | false =>
        cases hB : exclude.contains name with
        | true => simp [isOk]
        | false =>
          have h2 := ih (exclude ++ name :: attr.aliases)
          cases hok : schemaBuild rest (exclude ++ name :: attr.aliases) with
          | error e =>
            rw [hok] at h2
            simp only [isOk] at h2 ⊢
            simp [Bind.bind, Except.bind] at h2 ⊢
            simpa using h2
          | ok v =>
            rw [hok] at h2
            simp only [isOk] at h2 ⊢
            simp [Bind.bind, Except.bind, Pure.pure, Except.pure] at h2 ⊢
            simpa using h2
  · intro a
    unfold checkDefaultRequired
    by_cases h1 : a.required = false
    · simp [h1, isOk]
    · by_cases h2 : a.default.isNull
      · simp [h1, h2, isOk]
      · simp [h1, h2, isOk]

/-- Witness for C7 at concrete inputs: a collision-free one-attribute
schema compiles, and an optional attribute with a null default is
accepted. -/
theorem C7_witness :
    isOk (schemaBuild [("a", ⟨["aliasA"], .vnull, false⟩)] ["b"]) = true ∧
    isOk (checkDefaultRequired ⟨[], .vnull, true⟩) = true :=
  ⟨(C7_schema_uniqueness_and_default_required.1 _ _).mpr rfl,
   (C7_schema_uniqueness_and_default_required.2 _).mpr (Or.inr rfl)⟩

/-- Updating a key makes it present with the new payload. -/
theorem lookup_updateAssoc_self {α : Type} :
    ∀ (tbl : List (String × α)) (k : String) (v : α),
      (updateAssoc tbl k v).lookup k = some v := by
  intro tbl k v
  induction tbl with
  | nil => simp [updateAssoc, List.lookup]
  | cons hd rest ih =>
    obtain ⟨k', v'⟩ := hd
    by_cases h : k' = k
    · simp [updateAssoc, h, List.lookup]
    · have hne : (k == k') = false := by
        simp only [beq_eq_false_iff_ne]
        exact fun hh => h hh.symm
      simp [updateAssoc, h, List.lookup, hne, ih]

/-- C8: Registering an actor under a qualified name already present in
the registry table raises a conflict error in strict mode (no table is
produced, so the earlier registration survives) and in lenient mode
emits a warning (the returned flag) while overwriting the entry, so
the later registration is the one subsequently looked up. -/
theorem C8_registration_shadowing {α : Type}
    (tbl : List (String × α)) (name : String) (ns : Option String) (v : α)
    (hpresent : (tbl.lookup (resolveQualname name ns)).isSome = true) :
    (∃ e, addActor true tbl name ns v = .error e) ∧
    addActor false tbl name ns v =
      .ok (updateAssoc tbl (resolveQualname name ns) v, true) ∧
    (updateAssoc tbl (resolveQualname name ns) v).lookup
      (resolveQualname name ns) = some v := by
  refine ⟨⟨"Actor " ++ resolveQualname name ns ++ " is shadowing an existing", ?_⟩,
    ?_, lookup_updateAssoc_self tbl _ v⟩
  · simp [addActor, hpresent]
  · simp [addActor, hpresent]

/-- Witness for C8 at a concrete table: re-registering `builtins.x`
leniently stores the new payload 1 under the same key. -/
theorem C8_witness :
    (updateAssoc [("builtins.x", (0 : Nat))] (resolveQualname "x" none) 1).lookup
      (resolveQualname "x" none) = some 1 :=
  (C8_registration_shadowing [("builtins.x", 0)] "x" none 1 rfl).2.2

mutual

/-- Normalizing a fully resolved value returns it unchanged, with any
fuel: a resolved value contains no callables. -/
theorem normalize_toDeferred :
    ∀ (v : Value) (fuel : Nat) (c : Ctx),
      normalize fuel v.toDeferred c = .ok v
  | .vnull, fuel, c => by simp [Value.toDeferred, normalize]
  | .vbool b, fuel, c => by simp [Value.toDeferred, normalize]
  | .vint n, fuel, c => by simp [Value.toDeferred, normalize]
  | .vstr s, fuel, c => by simp [Value.toDeferred, normalize]
  | .vsecret s, fuel, c => by simp [Value.toDeferred, normalize]
  | .vlist xs, fuel, c => by
    simp [Value.toDeferred, normalize,
      normalizeList_toDeferredList xs fuel c, Bind.bind, Except.bind,
      Pure.pure, Except.pure]
  | .vdict kvs, fuel, c => by
    simp [Value.toDeferred, normalize,
      normalizeDict_toDeferredDict kvs fuel c, Bind.bind, Except.bind,
      Pure.pure, Except.pure]

/-- Elementwise version of `normalize_toDeferred` for sequences. -/
theorem normalizeList_toDeferredList :
    ∀ (xs : List Value) (fuel : Nat) (c : Ctx),
      normalizeList fuel (toDeferredList xs) c = .ok xs
  | [], fuel, c => by simp [toDeferredList, normalizeList]
  | x :: xs, fuel, c => by
    simp [toDeferredList, normalizeList, normalize_toDeferred x fuel c,
      normalizeList_toDeferredList xs fuel c, Bind.bind, Except.bind,
      Pure.pure, Except.pure]

/-- Entrywise version of `normalize_toDeferred` for mappings. -/
theorem normalizeDict_toDeferredDict :
    ∀ (kvs : List (String × Value)) (fuel : Nat) (c : Ctx),
      normalizeDict fuel (toDeferredDict kvs) c = .ok kvs
  | [], fuel, c => by simp [toDeferredDict, normalizeDict]
  | (k, v) :: kvs, fuel, c => by
    simp [toDeferredDict, normalizeDict, normalize_toDeferred v fuel c,
      normalizeDict_toDeferredDict kvs fuel c, Bind.bind, Except.bind,
      Pure.pure, Except.pure]

end

/-- C9: Full resolution is idempotent for deferred structures whose
embedded callables are pure (in this embedding every callable is a
pure function): when resolving `x` against context `c` succeeds with
value `v`, resolving the already-resolved result again yields the same
outcome, `resolve(resolve(x, c), c) = resolve(x, c)`. -/
theorem C9_resolve_idempotent
    (fuel : Nat) (x : DeferredValue) (c : Ctx) (v : Value)
    (h : normalize fuel x c = .ok v) :
    normalize fuel v.toDeferred c = normalize fuel x c := by
  rw [h, normalize_toDeferred]

/-- Witness for C9 at a concrete deferred callable: resolving
`lambda ctx: 7` yields 7, and resolving the resolved result again
agrees. -/
theorem C9_witness :
    normalize 1 ((Value.vint 7).toDeferred) [] =
      normalize 1 (.dfun fun _ => .dint 7) [] :=
  C9_resolve_idempotent 1 (.dfun fun _ => .dint 7) [] (.vint 7)
    (by simp [normalize])

/-- A check whose invocation returns any value other than the exact
boolean `False` lets the check loop move on to the next check. -/
theorem runChecks_cons_pass (fn : String) (i k : Nat) (lc : Ctx)
    (c : CheckModel) (rest : List CheckModel) (v : Value)
    (hcall : c.call lc = .ok v) (hne : v ≠ .vbool false) :
    runChecks fn i k lc (c :: rest) = runChecks fn i (k + 1) lc rest := by
  cases v with
  | vbool b =>
    cases b with
    | false => exact absurd rfl hne
    | true => simp [runChecks, hcall]
  | vnull => simp [runChecks, hcall]
  | vint n => simp [runChecks, hcall]
  | vstr s => simp [runChecks, hcall]
  | vsecret s => simp [runChecks, hcall]
  | vlist xs => simp [runChecks, hcall]
  | vdict kvs => simp [runChecks, hcall]

/-- C10: A check counts as failed only on the exact boolean `False`
(`check_result is False`) or a raised assertion; any other return
value — including Python-falsy ones such as 0, `None`, an empty string
or an empty list — is treated as a pass and the check loop continues. -/
theorem C10_falsy_non_false_check_passes
    (fn : String) (i k : Nat) (lc : Ctx) (c : CheckModel)
    (rest : List CheckModel) (v : Value)
    (hcall : c.call lc = .ok v) (hne : v ≠ .vbool false) :
    runChecks fn i k lc (c :: rest) = runChecks fn i (k + 1) lc rest :=
  runChecks_cons_pass fn i k lc c rest v hcall hne

/-- Witness for C10 at the Python-falsy return value 0: the check
passes and the loop continues with the remaining checks. -/
theorem C10_witness :
    runChecks "file" 0 0 []
        ({ call := fun _ => .ok (.vint 0), title := none, fields := [] } :: []) =
      runChecks "file" 0 1 [] [] :=
  C10_falsy_non_false_check_passes "file" 0 0 [] _ [] (.vint 0) rfl
    (fun h => Value.noConfusion h)

/-- A prefix of passing checks advances the loop without failing. -/
theorem runChecks_all_pass (fn : String) (i : Nat) (lc : Ctx) :
    ∀ (pre : List CheckModel) (k : Nat) (rest : List CheckModel),
      (∀ ch ∈ pre, ∃ w, ch.call lc = .ok w ∧ w ≠ .vbool false) →
      runChecks fn i k lc (pre ++ rest) =
        runChecks fn i (k + pre.length) lc rest := by
  intro pre
  induction pre with
  | nil => intro k rest _; simp
  | cons c cs ih =>
    intro k rest h
    obtain ⟨w, hw, hne⟩ := h c (by simp)
    rw [List.cons_append, runChecks_cons_pass fn i k lc c (cs ++ rest) w hw hne,
      ih (k + 1) rest (fun ch hch => h ch (by simp [hch]))]
    simp only [List.length_cons]
    congr 1
    omega

/-- A check returning the exact `False` or raising an assertion makes
the loop fail with the enriched assertion report at its coordinates. -/
theorem runChecks_fail_head (fn : String) (i k : Nat) (lc : Ctx)
    (c : CheckModel) (post : List CheckModel)
    (h : c.call lc = .ok (.vbool false) ∨ c.call lc = .error .assertErr) :
    runChecks fn i k lc (c :: post) =
      .error (.assertion (mkFailInfo fn i k c lc)) := by
  rcases h with h | h <;> simp [runChecks, h]

/-- C6: When a declared check of a step returns the exact boolean
`False` or raises an assertion (all earlier checks of the step having
passed), the whole plan run aborts immediately with an enriched
assertion failure — carrying the scenario file, step index, check
index, check title, the snapshot of the check's fields and the local
context (all packed by `mkFailInfo`) — regardless of the remaining
checks and steps, and as the `assertion` constructor, never re-wrapped
as a `runtime` failure. -/
theorem C6_check_failure_aborts_plan
    (fuel : Nat) (fn : String) (i : Nat) (g : Ctx) (step : StepModel)
    (rest : List StepModel) (v : Value) (exps lc : Ctx)
    (pre post : List CheckModel) (c : CheckModel)
    (hrun : step.run g = .ok v)
    (hexp : normalizeDict fuel step.exports (updateCtx g [(step.output, v)]) = .ok exps)
    (hlc : lc = updateCtx (updateCtx g [(step.output, v)]) exps)
    (hexpect : step.expect = pre ++ c :: post)
    (hpre : ∀ ch ∈ pre, ∃ w, ch.call lc = .ok w ∧ w ≠ .vbool false)
    (hfail : c.call lc = .ok (.vbool false) ∨ c.call lc = .error .assertErr) :
    runSpecFrom fuel fn i (step :: rest) g =
      .error (.assertion (mkFailInfo fn i pre.length c lc)) := by
  have hchecks : runChecks fn i 0 lc step.expect =
      .error (.assertion (mkFailInfo fn i pre.length c lc)) := by
    rw [hexpect, runChecks_all_pass fn i lc pre 0 (c :: post) hpre,
      Nat.zero_add, runChecks_fail_head fn i pre.length lc c post hfail]
  simp only [runSpecFrom, Bind.bind, Except.bind, stepIter, hrun, hexp, ← hlc,
    hchecks]

/-- Witness for C6 at a concrete one-step plan whose single check
returns `False`. -/
theorem C6_witness :
    runSpecFrom 0 "scenario.yaml" 0
        ({ run := fun _ => .ok .vnull, output := "result", exports := [],
           expect := [{ call := fun _ => .ok (.vbool false),
                        title := some "t", fields := [] }] } :: []) [] =
      .error (.assertion (mkFailInfo "scenario.yaml" 0 0
        { call := fun _ => .ok (.vbool false), title := some "t", fields := [] }
        (updateCtx (updateCtx [] [("result", .vnull)]) []))) :=
  C6_check_failure_aborts_plan 0 "scenario.yaml" 0 [] _ [] .vnull [] _ [] [] _
    rfl (by simp [normalizeDict]) rfl rfl (by simp) (Or.inl rfl)

/-- Updating a different key leaves a key's binding unchanged. -/
theorem lookup_updateAssoc_ne {α : Type} :
    ∀ (tbl : List (String × α)) (k k' : String) (v : α), k ≠ k' →
      (updateAssoc tbl k' v).lookup k = tbl.lookup k := by
  intro tbl k k' v h
  induction tbl with
  | nil =>
    have hne : (k == k') = false := by simpa using h
    simp [updateAssoc, List.lookup, hne]
  | cons hd rest ih =>
    obtain ⟨k'', v''⟩ := hd
    by_cases h2 : k'' = k'
    · have hne : (k == k') = false := by simpa using h
      simp [updateAssoc, h2, List.lookup, hne]
    · simp [updateAssoc, h2, List.lookup, ih]

/-- Merging a mapping whose keys avoid `k` leaves `k`'s binding
unchanged. -/
theorem lookup_updateCtx_not_mem {k : String} :
    ∀ (u d : Ctx), k ∉ u.map Prod.fst →
      (updateCtx d u).lookup k = d.lookup k := by
  intro u
  induction u with
  | nil => intro d _; rfl
  | cons hd u' ih =>
    intro d h
    obtain ⟨k', v'⟩ := hd
    have h1 : k ≠ k' := by
      intro hk; exact h (by simp [hk])
    have h2 : k ∉ u'.map Prod.fst := by
      intro hk; exact h (by simp [hk])
    calc (updateCtx d ((k', v') :: u')).lookup k
        = (updateCtx (updateAssoc d k' v') u').lookup k := rfl
      _ = (updateAssoc d k' v').lookup k := ih (updateAssoc d k' v') h2
      _ = d.lookup k := lookup_updateAssoc_ne d k k' v' h1

/-- Resolving a deferred mapping preserves its keys in order. -/
theorem normalizeDict_keys :
    ∀ (kvs : List (String × DeferredValue)) (fuel : Nat) (c : Ctx) (ws : Ctx),
      normalizeDict fuel kvs c = .ok ws →
      ws.map Prod.fst = kvs.map Prod.fst := by
  intro kvs
  induction kvs with
  | nil => intro fuel c ws h; simp [normalizeDict] at h; simp [← h]
  | cons hd rest ih =>
    intro fuel c ws h
    obtain ⟨k, x⟩ := hd
    simp only [normalizeDict, Bind.bind, Except.bind] at h
    cases hv : normalize fuel x c with
    | error e => rw [hv] at h; exact Except.noConfusion h
    | ok v =>
      rw [hv] at h
      cases hws : normalizeDict fuel rest c with
      | error e => rw [hws] at h; exact Except.noConfusion h
      | ok ws' =>
        rw [hws] at h
        simp only [Pure.pure, Except.pure, Except.ok.injEq] at h
        rw [← h]
        simp [ih fuel c ws' hws]

/-- C5: A successful step iteration updates the global context with
exactly the step's resolved exports and nothing else: the exports are
resolved against the local view already containing the step's result
under its declared output name, the new global context is the old one
merged with those exports (whose keys are the declared export keys),
and every key outside the export keys — in particular the step's
output name when it is not explicitly exported — keeps its previous
global binding. -/
theorem C5_step_export_frame
    (fuel : Nat) (fn : String) (i : Nat) (step : StepModel) (g g' : Ctx)
    (h : stepIter fuel fn i step g = .ok g') :
    ∃ v exps,
      step.run g = .ok v ∧
      normalizeDict fuel step.exports (updateCtx g [(step.output, v)]) = .ok exps ∧
      exps.map Prod.fst = step.exports.map Prod.fst ∧
      g' = updateCtx g exps ∧
      (∀ k, k ∉ exps.map Prod.fst → g'.lookup k = g.lookup k) := by
  cases hrun : step.run g with
  | error e =>
    cases e <;> simp [stepIter, hrun] at h
  | ok v =>
    simp only [stepIter, hrun] at h
    cases hexp : normalizeDict fuel step.exports (updateCtx g [(step.output, v)]) with
    | error e => simp [hexp] at h
    | ok exps =>
      simp only [hexp] at h
      cases hchk : runChecks fn i 0
          (updateCtx (updateCtx g [(step.output, v)]) exps) step.expect with
      | error f => simp [hchk] at h
      | ok u =>
        simp only [hchk] at h
        have hg : g' = updateCtx g exps := by
          simpa [eq_comm] using h
        refine ⟨v, exps, rfl, hexp, normalizeDict_keys _ fuel _ exps hexp,
          hg, ?_⟩
        intro k hk
        rw [hg]
        exact lookup_updateCtx_not_mem exps g hk

/-- Witness for C5 at a concrete step: executing a step that stores 5
under `result` and exports `value = 7` merges exactly
`{"value": 7}` into the empty global context. -/
theorem C5_witness :
    ∃ v exps,
      ({ run := fun _ => .ok (.vint 5), output := "result",
         exports := [("value", .dint 7)], expect := [] } : StepModel).run [] = .ok v ∧
      normalizeDict 0
        ({ run := fun _ => .ok (.vint 5), output := "result",
           exports := [("value", .dint 7)], expect := [] } : StepModel).exports
        (updateCtx [] [("result", v)]) = .ok exps ∧
      exps.map Prod.fst =
        ({ run := fun _ => .ok (.vint 5), output := "result",
           exports := [("value", .dint 7)], expect := [] } : StepModel).exports.map
          Prod.fst ∧
      [("value", Value.vint 7)] = updateCtx [] exps ∧
      (∀ k, k ∉ exps.map Prod.fst →
        ([("value", Value.vint 7)] : Ctx).lookup k = ([] : Ctx).lookup k) :=
  C5_step_export_frame 0 "f" 0
    { run := fun _ => .ok (.vint 5), output := "result",
      exports := [("value", .dint 7)], expect := [] } [] [("value", .vint 7)]
    (by simp [stepIter, normalizeDict, normalize, runChecks, updateCtx,
      updateAssoc, Bind.bind, Except.bind, Pure.pure, Except.pure])

end Loco
